import Mathlib

/-!
Shallow embedding of `slad_model.py` (SLAD: substructure-aware log anomaly
detection GNN) and proofs about it.

Feature matrices are `List (List ℝ)` (rows of real numbers, exact-real
semantics for the float arithmetic), binary label vectors are `List ℤ`.
External tensor-library primitives (graph-convolution layers, the learned
MLP weights, the SMOTE resampler's interpolation randomness) are taken as
function parameters; everything the repository's own code does is embedded
directly.
-/

/-- A graph batch: node feature matrix `x`, edge connectivity `edge_index`,
node label vector `y` (binary 0/1 labels as integers). -/
structure GraphData where
  x : List (List ℝ)
  edge_index : List (ℕ × ℕ)
  y : List ℤ

/-- The minority-label computation of `balance_features_labels`
(src lines 11–14): `minority_label = 0 if count_0 < count_1 else 1`. -/
def minorityLabel (labels : List ℤ) : ℤ :=
  if labels.count 0 < labels.count 1 then 0 else 1

/-- `torch.where(labels == v)[0]`: the indices (in increasing order) at which
the label vector holds value `v` (src line 15). -/
def torchWhere (labels : List ℤ) (v : ℤ) : List ℕ :=
  match labels with
  | [] => []
  | a :: rest =>
    if a = v then 0 :: (torchWhere rest v).map (· + 1)
    else (torchWhere rest v).map (· + 1)

/-- `t.repeat(k)` on a 1-D index tensor: the whole list tiled `k` times
(src line 34). -/
def torchRepeat (l : List ℕ) (k : ℕ) : List ℕ :=
  (List.replicate k l).flatten

/-- The neighbour-count computation of the SMOTE branch (src lines 22–23):
`n_neighbor = c - 1 if c - 1 < scale else scale` where `c` is the number of
minority samples. -/
def n_neighbor (c scale : ℕ) : ℕ :=
  if c - 1 < scale then c - 1 else scale

/-- Count-level model of `imblearn.over_sampling.SMOTE.fit_resample`, an
external library primitive (not part of this repository). Per the library's
documented contract, `sampling_strategy = \x7bminority_label: target\x7d` requests
`target` total samples of that class after resampling, so
`target - current_count` synthetic samples are generated and appended after
the original rows, with matching labels appended. The synthetic rows are
random interpolations between minority samples and their `k_neighbors`
nearest minority neighbours; their numeric content is internal library
randomness and is stood in for by copies of the first minority row, which no
property proved here depends on. -/
def smoteModel (features : List (List ℝ)) (labels : List ℤ)
    (minority_label : ℤ) (target : ℕ) (k_neighbors : ℕ) :
    List (List ℝ) × List ℤ :=
  let c := (torchWhere labels minority_label).length
  let syntheticRow := features.getD ((torchWhere labels minority_label).getD 0 0) []
  let _ := k_neighbors
  (features ++ List.replicate (target - c) syntheticRow,
   labels ++ List.replicate (target - c) minority_label)

/-- `balance_features_labels` (src lines 10–41). The `smote` parameter stands
for the external `SMOTE(...).fit_resample` call (see `smoteModel`); it
receives the features, labels, minority label, requested post-resampling
minority total `len(minority_indices) * over_sample_scale_factor`, and the
`k_neighbors` value. Falling off the end of the Python function returns
`None`; this is the `none` case. -/
def balance_features_labels
    (smote : List (List ℝ) → List ℤ → ℤ → ℕ → ℕ → List (List ℝ) × List ℤ)
    (features : List (List ℝ)) (labels : List ℤ)
    (over_sample_scale_factor : ℕ) (sample_method : String) :
    Option (List (List ℝ) × List ℤ) :=
  let minority_label := minorityLabel labels
  let minority_indices := torchWhere labels minority_label
  if minority_indices.length ≤ 1 ∨ over_sample_scale_factor = 0 then
    some (features, labels)
  else if sample_method = "SMOTE" then
    some (smote features labels minority_label
      (minority_indices.length * over_sample_scale_factor)
      (n_neighbor minority_indices.length over_sample_scale_factor))
  else if sample_method = "copy" then
    let selected_indices := torchRepeat minority_indices over_sample_scale_factor
    let selected_features := selected_indices.map (fun i => features.getD i [])
    some (features ++ selected_features,
      labels ++ List.replicate (minority_indices.length * over_sample_scale_factor) minority_label)
  else
    none

/-- The fixed constant of `calculate_similarity` (src line 62): `epsilon = 1e-4`. -/
noncomputable def epsilon : ℝ := 1e-4

/-- `torch.norm(x - p) ** 2` on one row pair (src line 63): the squared L2
norm of the componentwise difference, written as the source writes it —
a Euclidean norm (square root of the sum of squares) that is then squared. -/
noncomputable def sqEuclidean (x p : List ℝ) : ℝ :=
  (Real.sqrt (((x.zip p).map (fun q => (q.1 - q.2) ^ 2)).sum)) ^ 2

/-- The distance-to-similarity transform of src line 64:
`log((distance + 1) / (distance + epsilon))`. -/
noncomputable def similarityOfDistance (distance : ℝ) : ℝ :=
  Real.log ((distance + 1) / (distance + epsilon))

/-- `calculate_similarity` (src lines 44–65): the n × k matrix whose (i, j)
entry is the transformed squared Euclidean distance between node embedding
row i and prototype row j. -/
noncomputable def calculate_similarity (node_embedding prototypes : List (List ℝ)) :
    List (List ℝ) :=
  node_embedding.map (fun x =>
    prototypes.map (fun p => similarityOfDistance (sqEuclidean x p)))

/-- `torch.nn.Sigmoid` (external elementwise primitive, src line 195/207). -/
noncomputable def sigmoid (z : ℝ) : ℝ :=
  1 / (1 + Real.exp (-z))

/-- `F.relu` on one entry (external elementwise primitive). -/
noncomputable def reluFn (v : ℝ) : ℝ := max v 0

/-- `F.leaky_relu` on one entry with its default negative slope 0.01
(external elementwise primitive). -/
noncomputable def leakyReluFn (v : ℝ) : ℝ := if v < 0 then 0.01 * v else v

/-- Elementwise application of a scalar function to a feature matrix. -/
def mapMatrix (f : ℝ → ℝ) (m : List (List ℝ)) : List (List ℝ) :=
  m.map (fun row => row.map f)

/-- `MultiLayerGCN.forward` (src lines 77–86). The convolution layers are
external `GCNConv` modules, taken as functions of the running features and
the edge index; `F.gelu` (an erf-based elementwise primitive) is likewise a
parameter. Each loop iteration reassigns `x` only inside one of the three
recognised activation branches; with any other activation name the iteration
leaves `x` untouched and the convolution is never invoked. -/
noncomputable def multiLayerGCNForward (geluFn : ℝ → ℝ)
    (conv_layers : List (List (List ℝ) → List (ℕ × ℕ) → List (List ℝ)))
    (activation : String) (data : GraphData) : List (List ℝ) :=
  conv_layers.foldl (fun x conv =>
    if activation = "relu" then mapMatrix reluFn (conv x data.edge_index)
    else if activation = "leaky_relu" then mapMatrix leakyReluFn (conv x data.edge_index)
    else if activation = "gelu" then mapMatrix geluFn (conv x data.edge_index)
    else x) data.x

/-- `MultiLayerGAT.forward` (src lines 101–110): identical control structure
to `MultiLayerGCN.forward`, over external `GATConv` layers. -/
noncomputable def multiLayerGATForward (geluFn : ℝ → ℝ)
    (gat_layers : List (List (List ℝ) → List (ℕ × ℕ) → List (List ℝ)))
    (activation : String) (data : GraphData) : List (List ℝ) :=
  gat_layers.foldl (fun x gat =>
    if activation = "relu" then mapMatrix reluFn (gat x data.edge_index)
    else if activation = "leaky_relu" then mapMatrix leakyReluFn (gat x data.edge_index)
    else if activation = "gelu" then mapMatrix geluFn (gat x data.edge_index)
    else x) data.x

/-- The shape of `MLPReadout.__init__` (src lines 133–137): the list of
(in-width, out-width) pairs of its linear layers — `n_layers` halving hidden
layers (integer division) followed by the final layer to `output_dim`. -/
def mlpReadoutLayers (input_dim output_dim n_layers : ℕ) : List (ℕ × ℕ) :=
  ((List.range n_layers).map (fun n => (input_dim / 2 ^ n, input_dim / 2 ^ (n + 1))))
    ++ [(input_dim / 2 ^ n_layers, output_dim)]

/-- The encoder configuration chosen by `SLADGNN.__init__` (src 178–192). -/
inductive GNNEncoder where
  | gcn (num_features : ℕ) (hidden_sizes : List ℕ) (activation : String)
  | gat (num_features : ℕ) (hidden_sizes : List ℕ) (activation : String)
      (num_head : ℕ) (dropout : ℝ)
  | gtc (num_features : ℕ) (hidden_sizes : List ℕ) (num_head : ℕ) (dropout : ℝ)

/-- The members successfully constructed by `SLADGNN.__init__`: the encoder
configuration, the prototype-bank shape
(num_classes, num_prototypes_per_class, embedding width) — its values are
drawn by the library's `torch.randn` — and the readout's layer shape. -/
structure SLADGNNParts where
  encoder : GNNEncoder
  prototypeShape : ℕ × ℕ × ℕ
  mlpLayers : List (ℕ × ℕ)

/-- `SLADGNN.__init__` (src lines 173–195): dispatch on `GNN_type`, building
encoder, prototype bank (width `hidden_sizes[-1]`, multiplied by the head
count for gat/gtc) and `MLPReadout(mlp_input_dim, mlp_output_dim)` (default
`n_layers=1`); any other tag raises `ValueError("not supportive gnn.")`,
modelled as `Except.error`, constructing nothing. -/
def sladgnnInit (gnn_head_num : ℕ) (gnn_dropout : ℝ) (activation_fuc : String)
    (GNN_type : String) (num_features : ℕ) (hidden_sizes : List ℕ)
    (num_classes num_prototypes_per_class mlp_input_dim mlp_hidden_dim : ℕ)
    (mlp_output_dim : ℕ) : Except String SLADGNNParts :=
  if GNN_type = "gcn" then
    Except.ok
      { encoder := GNNEncoder.gcn num_features hidden_sizes activation_fuc
        prototypeShape := (num_classes, num_prototypes_per_class, hidden_sizes.getLastD 0)
        mlpLayers := mlpReadoutLayers mlp_input_dim mlp_output_dim 1 }
  else if GNN_type = "gat" then
    Except.ok
      { encoder := GNNEncoder.gat num_features hidden_sizes activation_fuc gnn_head_num gnn_dropout
        prototypeShape :=
          (num_classes, num_prototypes_per_class, hidden_sizes.getLastD 0 * gnn_head_num)
        mlpLayers := mlpReadoutLayers mlp_input_dim mlp_output_dim 1 }
  else if GNN_type = "gtc" then
    Except.ok
      { encoder := GNNEncoder.gtc num_features hidden_sizes gnn_head_num gnn_dropout
        prototypeShape :=
          (num_classes, num_prototypes_per_class, hidden_sizes.getLastD 0 * gnn_head_num)
        mlpLayers := mlpReadoutLayers mlp_input_dim mlp_output_dim 1 }
  else
    Except.error "not supportive gnn."

/-- `SLADGNN.forward` (src lines 197–208). The encoder `gnn` (with its
learned weights) and the per-row readout `mlp` (the `MLPReadout`, which maps
each similarity row to one scalar; `x.squeeze()` on the resulting n × 1
output yields the 1-D probability vector modelled here as the list of those
scalars) are external learned modules, taken as function parameters, as is
the `smote` resampler. The prototype bank is reshaped from
(num_classes, num_prototypes_per_class, d) to a flat list of prototype rows.
In train mode with an unrecognised sampling method the Python unpacking
`x, y = None` raises, so no pair is returned: the `none` case. The `output`
argument is accepted and unused, as in the source. -/
noncomputable def sladgnnForward
    (smote : List (List ℝ) → List ℤ → ℤ → ℕ → ℕ → List (List ℝ) × List ℤ)
    (gnn : GraphData → List (List ℝ)) (mlp : List ℝ → ℝ)
    (prototype_layer : List (List (List ℝ))) (data : GraphData) (mode : String)
    (over_sample_scale_factor : ℕ) (sample_method : String) (output : Unit) :
    Option (List ℝ × List ℝ) :=
  let x := gnn data
  let balanced :=
    if mode = "train" then
      balance_features_labels smote x data.y over_sample_scale_factor sample_method
    else
      some (x, data.y)
  match balanced with
  | none => none
  | some (x2, y) =>
    let reshaped_prot_layer := prototype_layer.flatten
    let s := calculate_similarity x2 reshaped_prot_layer
    some (s.map (fun row => sigmoid (mlp row)), y.map (fun v => (Int.cast v : ℝ)))

/-! ## Helper lemmas -/

theorem torchWhere_length (l : List ℤ) (v : ℤ) :
    (torchWhere l v).length = l.count v := by
  induction l with
  | nil => simp [torchWhere]
  | cons a rest ih =>
    by_cases h : a = v
    · simp [torchWhere, h, ih, List.count_cons]
    · simp [torchWhere, h, ih, List.count_cons, Ne.symm h]

theorem torchWhere_lt_length (l : List ℤ) (v : ℤ) :
    ∀ i ∈ torchWhere l v, i < l.length := by
  induction l with
  | nil => simp [torchWhere]
  | cons a rest ih =>
    intro i hi
    by_cases h : a = v
    · simp only [torchWhere, if_pos h, List.mem_cons, List.mem_map] at hi
      rcases hi with rfl | ⟨j, hj, rfl⟩
      · simp
      · simpa using Nat.succ_lt_succ (ih j hj)
    · simp only [torchWhere, if_neg h, List.mem_map] at hi
      rcases hi with ⟨j, hj, rfl⟩
      simpa using Nat.succ_lt_succ (ih j hj)

theorem torchRepeat_length (l : List ℕ) (k : ℕ) :
    (torchRepeat l k).length = k * l.length := by
  induction k with
  | zero => simp [torchRepeat]
  | succ n ih =>
    simp only [torchRepeat, List.replicate_succ, List.flatten_cons, List.length_append]
    simp only [torchRepeat] at ih
    rw [ih]
    ring

theorem binary_length (l : List ℤ) (h : ∀ x ∈ l, x = 0 ∨ x = 1) :
    l.length = l.count 0 + l.count 1 := by
  induction l with
  | nil => simp
  | cons a rest ih =>
    have ha := h a (by simp)
    have hrest := ih (fun x hx => h x (by simp [hx]))
    rcases ha with rfl | rfl <;>
      simp [List.count_cons, hrest] <;> omega

theorem smoteModel_lengths (f : List (List ℝ)) (l : List ℤ) (m : ℤ) (t k : ℕ)
    (h : f.length = l.length) :
    ((smoteModel f l m t k).1).length = ((smoteModel f l m t k).2).length := by
  simp [smoteModel, h]

theorem balance_guard_eq (smote : List (List ℝ) → List ℤ → ℤ → ℕ → ℕ → List (List ℝ) × List ℤ)
    (f : List (List ℝ)) (l : List ℤ) (scale : ℕ) (method : String)
    (h : (torchWhere l (minorityLabel l)).length ≤ 1 ∨ scale = 0) :
    balance_features_labels smote f l scale method = some (f, l) := by
  unfold balance_features_labels
  rw [if_pos h]

theorem balance_smote_eq (smote : List (List ℝ) → List ℤ → ℤ → ℕ → ℕ → List (List ℝ) × List ℤ)
    (f : List (List ℝ)) (l : List ℤ) (scale : ℕ)
    (h : ¬((torchWhere l (minorityLabel l)).length ≤ 1 ∨ scale = 0)) :
    balance_features_labels smote f l scale "SMOTE" =
      some (smote f l (minorityLabel l)
        ((torchWhere l (minorityLabel l)).length * scale)
        (n_neighbor (torchWhere l (minorityLabel l)).length scale)) := by
  unfold balance_features_labels
  rw [if_neg h, if_pos rfl]

theorem balance_copy_eq (smote : List (List ℝ) → List ℤ → ℤ → ℕ → ℕ → List (List ℝ) × List ℤ)
    (f : List (List ℝ)) (l : List ℤ) (scale : ℕ)
    (h : ¬((torchWhere l (minorityLabel l)).length ≤ 1 ∨ scale = 0)) :
    balance_features_labels smote f l scale "copy" =
      some (f ++ (torchRepeat (torchWhere l (minorityLabel l)) scale).map (fun i => f.getD i []),
        l ++ List.replicate ((torchWhere l (minorityLabel l)).length * scale) (minorityLabel l)) := by
  unfold balance_features_labels
  rw [if_neg h, if_neg (by decide : ¬(("copy" : String) = "SMOTE")), if_pos rfl]

theorem balance_other_eq (smote : List (List ℝ) → List ℤ → ℤ → ℕ → ℕ → List (List ℝ) × List ℤ)
    (f : List (List ℝ)) (l : List ℤ) (scale : ℕ) (method : String)
    (h : ¬((torchWhere l (minorityLabel l)).length ≤ 1 ∨ scale = 0))
    (hm1 : method ≠ "SMOTE") (hm2 : method ≠ "copy") :
    balance_features_labels smote f l scale method = none := by
  unfold balance_features_labels
  rw [if_neg h, if_neg hm1, if_neg hm2]

/-! ## Claim theorems -/

/-- C3: for every feature matrix and binary label vector, if the minority
class has at most one member or the oversampling scale factor is zero,
`balance_features_labels` returns the input features and labels unchanged
(same values, same order), whatever the sampling method tag. -/
theorem balance_noop_spec
    (smote : List (List ℝ) → List ℤ → ℤ → ℕ → ℕ → List (List ℝ) × List ℤ)
    (f : List (List ℝ)) (l : List ℤ) (scale : ℕ) (method : String)
    (hbin : ∀ x ∈ l, x = 0 ∨ x = 1)
    (h : (torchWhere l (minorityLabel l)).length ≤ 1 ∨ scale = 0) :
    balance_features_labels smote f l scale method = some (f, l) := by
  have := hbin
  exact balance_guard_eq smote f l scale method h

/-- Witness for `balance_noop_spec` at features [[1],[2]], labels [0,1]
(each class has one member, so the minority class, label 1, has one member),
scale factor 5 and method "SMOTE". -/
theorem balance_noop_spec_witness :
    ((∀ x ∈ ([0, 1] : List ℤ), x = 0 ∨ x = 1) ∧
      ((torchWhere [0, 1] (minorityLabel [0, 1])).length ≤ 1 ∨ (5 : ℕ) = 0)) ∧
    balance_features_labels smoteModel [[1], [2]] [0, 1] 5 "SMOTE" = some ([[1], [2]], [0, 1]) :=
  ⟨⟨by decide, by decide⟩,
    balance_noop_spec smoteModel [[1], [2]] [0, 1] 5 "SMOTE" (by decide) (by decide)⟩

/-- C4: in "copy" mode, with minority count ≥ 2, scale factor ≥ 1 and one
feature row per label, `balance_features_labels` returns a label vector of
length `input_length + minority_count * scale_factor` whose appended entries
all equal the minority label, and a feature matrix whose first
`input_length` rows are the original rows unmodified and in order, followed
exactly by the gathered minority rows (the minority indices tiled
`scale_factor` times, each a genuine row index); the original labels are
likewise an unmodified initial segment. -/
theorem balance_copy_spec
    (smote : List (List ℝ) → List ℤ → ℤ → ℕ → ℕ → List (List ℝ) × List ℤ)
    (f : List (List ℝ)) (l : List ℤ) (scale : ℕ)
    (hc : 2 ≤ (torchWhere l (minorityLabel l)).length) (hs : 1 ≤ scale)
    (hfl : f.length = l.length) :
    ∃ f' l', balance_features_labels smote f l scale "copy" = some (f', l') ∧
      l'.length = l.length + (torchWhere l (minorityLabel l)).length * scale ∧
      (∀ x ∈ l'.drop l.length, x = minorityLabel l) ∧
      f'.take f.length = f ∧
      l'.take l.length = l ∧
      f'.drop f.length =
        (torchRepeat (torchWhere l (minorityLabel l)) scale).map (fun i => f.getD i []) ∧
      (∀ i ∈ torchWhere l (minorityLabel l), i < f.length) := by
  have hguard : ¬((torchWhere l (minorityLabel l)).length ≤ 1 ∨ scale = 0) := by omega
  refine ⟨_, _, balance_copy_eq smote f l scale hguard, ?_, ?_, ?_, ?_, ?_, ?_⟩
  · simp
  · intro x hx
    rw [List.drop_left] at hx
    exact (List.eq_of_mem_replicate hx)
  · exact List.take_left f _
  · exact List.take_left l _
  · exact List.drop_left f _
  · intro i hi
    rw [hfl]
    exact torchWhere_lt_length l (minorityLabel l) i hi

/-- Witness for `balance_copy_spec` at features [[1],[2],[3],[4],[5]],
labels [0,0,0,1,1] (minority label 1, count 2), scale factor 3. -/
theorem balance_copy_spec_witness :
    (2 ≤ (torchWhere [0, 0, 0, 1, 1] (minorityLabel [0, 0, 0, 1, 1])).length ∧
      1 ≤ 3 ∧
      ([[1], [2], [3], [4], [5]] : List (List ℝ)).length = ([0, 0, 0, 1, 1] : List ℤ).length) ∧
    (∃ f' l',
      balance_features_labels smoteModel [[1], [2], [3], [4], [5]] [0, 0, 0, 1, 1] 3 "copy" =
        some (f', l') ∧
      l'.length = ([0, 0, 0, 1, 1] : List ℤ).length +
        (torchWhere [0, 0, 0, 1, 1] (minorityLabel [0, 0, 0, 1, 1])).length * 3 ∧
      (∀ x ∈ l'.drop ([0, 0, 0, 1, 1] : List ℤ).length, x = minorityLabel [0, 0, 0, 1, 1]) ∧
      f'.take ([[1], [2], [3], [4], [5]] : List (List ℝ)).length = [[1], [2], [3], [4], [5]] ∧
      l'.take ([0, 0, 0, 1, 1] : List ℤ).length = [0, 0, 0, 1, 1] ∧
      f'.drop ([[1], [2], [3], [4], [5]] : List (List ℝ)).length =
        (torchRepeat (torchWhere [0, 0, 0, 1, 1] (minorityLabel [0, 0, 0, 1, 1])) 3).map
          (fun i => ([[1], [2], [3], [4], [5]] : List (List ℝ)).getD i []) ∧
      (∀ i ∈ torchWhere [0, 0, 0, 1, 1] (minorityLabel [0, 0, 0, 1, 1]),
        i < ([[1], [2], [3], [4], [5]] : List (List ℝ)).length)) :=
  ⟨⟨by decide, by decide, by simp⟩,
    balance_copy_spec smoteModel [[1], [2], [3], [4], [5]] [0, 0, 0, 1, 1] 3
      (by decide) (by decide) (by simp)⟩

/-- C5 counterexample: on the tied label vector [0,0,1,1] the code picks
minority label 1, not 0 as the claim states; observably, copy-mode
balancing appends label-1 entries and gathers the rows at indices 2 and 3. -/
theorem minority_tie_counterexample :
    minorityLabel [0, 0, 1, 1] = 1 ∧ (1 : ℤ) ≠ 0 ∧
    balance_features_labels smoteModel [[10], [20], [30], [40]] [0, 0, 1, 1] 1 "copy" =
      some ([[10], [20], [30], [40], [30], [40]], [0, 0, 1, 1, 1, 1]) := by
  refine ⟨by decide, by decide, ?_⟩
  rw [balance_copy_eq smoteModel _ _ _ (by decide)]
  norm_num [minorityLabel, torchWhere, torchRepeat, List.getD, List.replicate]

/-- C5 amended: `balance_features_labels` determines the minority label to
be whichever of 0, 1 has strictly fewer occurrences, and when labels 0
and 1 occur equally often the minority label is 1 (tie broken toward
label 1). -/
theorem minority_label_tie_spec (l : List ℤ) :
    (l.count 0 < l.count 1 → minorityLabel l = 0) ∧
    (l.count 1 < l.count 0 → minorityLabel l = 1) ∧
    (l.count 0 = l.count 1 → minorityLabel l = 1) := by
  refine ⟨fun h => ?_, fun h => ?_, fun h => ?_⟩
  · simp [minorityLabel, h]
  · rw [minorityLabel, if_neg (by omega)]
  · rw [minorityLabel, if_neg (by omega)]

/-- Witness for `minority_label_tie_spec` at the label vectors [0,1,1]
(strict minority 0), [0,0,1] (strict minority 1) and [0,1] (tie). -/
theorem minority_label_tie_spec_witness :
    (([0, 1, 1] : List ℤ).count 0 < ([0, 1, 1] : List ℤ).count 1 ∧
      minorityLabel [0, 1, 1] = 0) ∧
    (([0, 0, 1] : List ℤ).count 1 < ([0, 0, 1] : List ℤ).count 0 ∧
      minorityLabel [0, 0, 1] = 1) ∧
    (([0, 1] : List ℤ).count 0 = ([0, 1] : List ℤ).count 1 ∧
      minorityLabel [0, 1] = 1) :=
  ⟨⟨by decide, (minority_label_tie_spec [0, 1, 1]).1 (by decide)⟩,
    ⟨by decide, (minority_label_tie_spec [0, 0, 1]).2.1 (by decide)⟩,
    ⟨by decide, (minority_label_tie_spec [0, 1]).2.2 (by decide)⟩⟩

/-- C9: with minority count ≥ 2 and scale factor ≥ 1, a sampling method tag
that is neither "SMOTE" nor "copy" makes `balance_features_labels` fall off
the end of the function: no (features, labels) pair is produced (Python
returns `None`) and no error is raised. -/
theorem balance_unknown_method_spec
    (smote : List (List ℝ) → List ℤ → ℤ → ℕ → ℕ → List (List ℝ) × List ℤ)
    (f : List (List ℝ)) (l : List ℤ) (scale : ℕ) (method : String)
    (hm1 : method ≠ "SMOTE") (hm2 : method ≠ "copy")
    (hc : 2 ≤ (torchWhere l (minorityLabel l)).length) (hs : 1 ≤ scale) :
    balance_features_labels smote f l scale method = none :=
  balance_other_eq smote f l scale method (by omega) hm1 hm2

/-- Witness for `balance_unknown_method_spec` at labels [0,0,0,1,1]
(minority count 2), scale factor 1 and method tag "other". -/
theorem balance_unknown_method_spec_witness :
    (("other" : String) ≠ "SMOTE" ∧ ("other" : String) ≠ "copy" ∧
      2 ≤ (torchWhere [0, 0, 0, 1, 1] (minorityLabel [0, 0, 0, 1, 1])).length ∧
      1 ≤ 1) ∧
    balance_features_labels smoteModel [[1], [2], [3], [4], [5]] [0, 0, 0, 1, 1] 1 "other" = none :=
  ⟨⟨by decide, by decide, by decide, by decide⟩,
    balance_unknown_method_spec smoteModel [[1], [2], [3], [4], [5]] [0, 0, 0, 1, 1] 1 "other"
      (by decide) (by decide) (by decide) (by decide)⟩

/-- C6 counterexample: at labels [0,0,0,1,1] (minority label 1, minority
count 2) and scale factor 1 — which satisfy the claim's preconditions
minority count ≥ 2 and scale factor ≥ 1 — the SMOTE call requests a
post-resampling minority total of 2 × 1 = 2, which the minority class
already has, so zero new samples are synthesized and the data is returned
with its original length 5; the claim's count of 2 × 1 = 2 new samples
would give length 5 + 2 · 1 = 7 ≠ 5. -/
theorem smote_count_counterexample :
    balance_features_labels smoteModel [[1], [2], [3], [4], [5]] [0, 0, 0, 1, 1] 1 "SMOTE" =
      some ([[1], [2], [3], [4], [5]], [0, 0, 0, 1, 1]) ∧
    (torchWhere [0, 0, 0, 1, 1] (minorityLabel [0, 0, 0, 1, 1])).length = 2 ∧
    ([0, 0, 0, 1, 1] : List ℤ).length = 5 ∧
    (5 : ℕ) ≠ 5 + 2 * 1 := by
  refine ⟨?_, by decide, by decide, by decide⟩
  rw [balance_smote_eq smoteModel _ _ _ (by decide)]
  norm_num [smoteModel, minorityLabel, torchWhere, n_neighbor]

/-- C6 amended: in "SMOTE" mode with minority count ≥ 2 and scale factor
≥ 1, the code requests a post-resampling minority total of
`minority_count * scale_factor`, so exactly
`minority_count * (scale_factor - 1)` new minority-class samples are
synthesized and appended after the originals with matching minority labels,
and the neighbour count handed to the interpolation routine is
`min(minority_count - 1, scale_factor)`. -/
theorem smote_count_spec (f : List (List ℝ)) (l : List ℤ) (scale : ℕ)
    (hc : 2 ≤ (torchWhere l (minorityLabel l)).length) (hs : 1 ≤ scale) :
    ∃ f' l', balance_features_labels smoteModel f l scale "SMOTE" = some (f', l') ∧
      l'.length = l.length + (torchWhere l (minorityLabel l)).length * (scale - 1) ∧
      f'.length = f.length + (torchWhere l (minorityLabel l)).length * (scale - 1) ∧
      (∀ x ∈ l'.drop l.length, x = minorityLabel l) ∧
      l'.take l.length = l ∧
      f'.take f.length = f ∧
      n_neighbor (torchWhere l (minorityLabel l)).length scale =
        min ((torchWhere l (minorityLabel l)).length - 1) scale := by
  have hguard : ¬((torchWhere l (minorityLabel l)).length ≤ 1 ∨ scale = 0) := by omega
  obtain ⟨s, rfl⟩ : ∃ s, scale = s + 1 := ⟨scale - 1, by omega⟩
  have hsub : (torchWhere l (minorityLabel l)).length * (s + 1) -
      (torchWhere l (minorityLabel l)).length =
      (torchWhere l (minorityLabel l)).length * (s + 1 - 1) := by
    simp [Nat.mul_succ]
  refine ⟨f ++ List.replicate ((torchWhere l (minorityLabel l)).length * (s + 1 - 1))
      (f.getD ((torchWhere l (minorityLabel l)).getD 0 0) []),
    l ++ List.replicate ((torchWhere l (minorityLabel l)).length * (s + 1 - 1)) (minorityLabel l),
    ?_, by simp, by simp, ?_, List.take_left l _, List.take_left f _, ?_⟩
  · rw [balance_smote_eq smoteModel f l (s + 1) hguard]
    simp only [smoteModel, hsub]
  · intro x hx
    rw [List.drop_left] at hx
    exact List.eq_of_mem_replicate hx
  · unfold n_neighbor
    split <;> omega

/-- Witness for `smote_count_spec` at labels [0,0,0,1,1] (minority count 2)
and scale factor 3: 2 × (3 − 1) = 4 samples are appended, not 2 × 3 = 6. -/
theorem smote_count_spec_witness :
    (2 ≤ (torchWhere [0, 0, 0, 1, 1] (minorityLabel [0, 0, 0, 1, 1])).length ∧ 1 ≤ 3) ∧
    (∃ f' l',
      balance_features_labels smoteModel [[1], [2], [3], [4], [5]] [0, 0, 0, 1, 1] 3 "SMOTE" =
        some (f', l') ∧
      l'.length = ([0, 0, 0, 1, 1] : List ℤ).length +
        (torchWhere [0, 0, 0, 1, 1] (minorityLabel [0, 0, 0, 1, 1])).length * (3 - 1) ∧
      f'.length = ([[1], [2], [3], [4], [5]] : List (List ℝ)).length +
        (torchWhere [0, 0, 0, 1, 1] (minorityLabel [0, 0, 0, 1, 1])).length * (3 - 1) ∧
      (∀ x ∈ l'.drop ([0, 0, 0, 1, 1] : List ℤ).length, x = minorityLabel [0, 0, 0, 1, 1]) ∧
      l'.take ([0, 0, 0, 1, 1] : List ℤ).length = [0, 0, 0, 1, 1] ∧
      f'.take ([[1], [2], [3], [4], [5]] : List (List ℝ)).length = [[1], [2], [3], [4], [5]] ∧
      n_neighbor (torchWhere [0, 0, 0, 1, 1] (minorityLabel [0, 0, 0, 1, 1])).length 3 =
        min ((torchWhere [0, 0, 0, 1, 1] (minorityLabel [0, 0, 0, 1, 1])).length - 1) 3) :=
  ⟨⟨by decide, by decide⟩,
    smote_count_spec [[1], [2], [3], [4], [5]] [0, 0, 0, 1, 1] 3 (by decide) (by decide)⟩

/-- C8: constructing `SLADGNN` with a `GNN_type` outside
\x7b"gcn", "gat", "gtc"\x7d yields the fatal configuration error
`ValueError("not supportive gnn.")` with no partial construction: the
result is the bare error value, carrying no encoder, prototype bank or
readout. -/
theorem sladgnn_init_error_spec (gnn_head_num : ℕ) (gnn_dropout : ℝ)
    (activation_fuc GNN_type : String) (num_features : ℕ) (hidden_sizes : List ℕ)
    (num_classes num_prototypes_per_class mlp_input_dim mlp_hidden_dim mlp_output_dim : ℕ)
    (h1 : GNN_type ≠ "gcn") (h2 : GNN_type ≠ "gat") (h3 : GNN_type ≠ "gtc") :
    sladgnnInit gnn_head_num gnn_dropout activation_fuc GNN_type num_features hidden_sizes
      num_classes num_prototypes_per_class mlp_input_dim mlp_hidden_dim mlp_output_dim =
      Except.error "not supportive gnn." := by
  unfold sladgnnInit
  rw [if_neg h1, if_neg h2, if_neg h3]

/-- Witness for `sladgnn_init_error_spec` at the unsupported tag
"transformer". -/
theorem sladgnn_init_error_spec_witness :
    (("transformer" : String) ≠ "gcn" ∧ ("transformer" : String) ≠ "gat" ∧
      ("transformer" : String) ≠ "gtc") ∧
    sladgnnInit 4 (1 / 5) "relu" "transformer" 8 [16, 16] 2 3 6 32 1 =
      Except.error "not supportive gnn." :=
  ⟨⟨by decide, by decide, by decide⟩,
    sladgnn_init_error_spec 4 (1 / 5) "relu" "transformer" 8 [16, 16] 2 3 6 32 1
      (by decide) (by decide) (by decide)⟩

/-- C10: `mlp_hidden_dim` has no effect: two constructions differing only in
`mlp_hidden_dim` produce the same result, and every successfully
constructed model's readout is `MLPReadout(mlp_input_dim, mlp_output_dim)`
(default one hidden layer), so identical forward calls on the identical
constructed parts return identical results — the parameter is accepted but
never used. -/
theorem mlp_hidden_dim_unused_spec (gnn_head_num : ℕ) (gnn_dropout : ℝ)
    (activation_fuc GNN_type : String) (num_features : ℕ) (hidden_sizes : List ℕ)
    (num_classes num_prototypes_per_class mlp_input_dim : ℕ)
    (mlp_hidden_dim₁ mlp_hidden_dim₂ mlp_output_dim : ℕ) :
    sladgnnInit gnn_head_num gnn_dropout activation_fuc GNN_type num_features hidden_sizes
        num_classes num_prototypes_per_class mlp_input_dim mlp_hidden_dim₁ mlp_output_dim =
      sladgnnInit gnn_head_num gnn_dropout activation_fuc GNN_type num_features hidden_sizes
        num_classes num_prototypes_per_class mlp_input_dim mlp_hidden_dim₂ mlp_output_dim ∧
    (∀ parts, sladgnnInit gnn_head_num gnn_dropout activation_fuc GNN_type num_features
        hidden_sizes num_classes num_prototypes_per_class mlp_input_dim mlp_hidden_dim₁
        mlp_output_dim = Except.ok parts →
      parts.mlpLayers = mlpReadoutLayers mlp_input_dim mlp_output_dim 1) := by
  refine ⟨rfl, fun parts h => ?_⟩
  unfold sladgnnInit at h
  split_ifs at h <;> cases h <;> rfl

/-- Witness for `mlp_hidden_dim_unused_spec`: two "gcn" constructions with
`mlp_hidden_dim` 99 and 7 coincide, and the constructed readout's layer
shape is determined by `mlp_input_dim = 6` and `mlp_output_dim = 1` alone. -/
theorem mlp_hidden_dim_unused_spec_witness :
    sladgnnInit 4 0 "relu" "gcn" 8 [16, 16] 2 3 6 99 1 =
      sladgnnInit 4 0 "relu" "gcn" 8 [16, 16] 2 3 6 7 1 ∧
    ({ encoder := GNNEncoder.gcn 8 [16, 16] "relu"
       prototypeShape := (2, 3, 16)
       mlpLayers := mlpReadoutLayers 6 1 1 } : SLADGNNParts).mlpLayers =
      mlpReadoutLayers 6 1 1 :=
  ⟨(mlp_hidden_dim_unused_spec 4 0 "relu" "gcn" 8 [16, 16] 2 3 6 99 7 1).1,
    (mlp_hidden_dim_unused_spec 4 0 "relu" "gcn" 8 [16, 16] 2 3 6 99 7 1).2 _ rfl⟩

theorem foldl_fixed {α β : Type} (g : α → β → α) (hg : ∀ x b, g x b = x)
    (l : List β) (x : α) : l.foldl g x = x := by
  induction l generalizing x with
  | nil => rfl
  | cons b t ih => rw [List.foldl_cons, hg, ih]

/-- C7 counterexample: with the unrecognised activation name "tanh", a
one-layer GCN (and likewise GAT) forward pass returns the raw input feature
matrix [[5]] — the convolution layer, which here would produce [[1, 1]], is
never applied, so the output is not the transformed node feature matrix of
the final hidden width. -/
theorem activation_skip_counterexample :
    multiLayerGCNForward (fun v => v) [fun _ _ => [[1, 1]]] "tanh"
      { x := [[5]], edge_index := [], y := [] } = [[(5 : ℝ)]] ∧
    multiLayerGATForward (fun v => v) [fun _ _ => [[1, 1]]] "tanh"
      { x := [[5]], edge_index := [], y := [] } = [[(5 : ℝ)]] ∧
    ([[(5 : ℝ)]] : List (List ℝ)) ≠ [[1, 1]] := by
  refine ⟨?_, ?_, by simp⟩ <;> rfl

/-- C7 amended: for the GCN and GAT encoder variants, an activation name
outside \x7b"relu", "leaky_relu", "gelu"\x7d makes every loop iteration a
complete no-op: the graph-convolution layers are never invoked and the
forward pass returns the input node feature matrix unchanged (at the input
feature width, not the final hidden width). -/
theorem activation_skip_spec (geluFn : ℝ → ℝ)
    (layers : List (List (List ℝ) → List (ℕ × ℕ) → List (List ℝ)))
    (activation : String) (data : GraphData)
    (h1 : activation ≠ "relu") (h2 : activation ≠ "leaky_relu")
    (h3 : activation ≠ "gelu") :
    multiLayerGCNForward geluFn layers activation data = data.x ∧
    multiLayerGATForward geluFn layers activation data = data.x := by
  constructor
  · unfold multiLayerGCNForward
    exact foldl_fixed _ (fun x conv => by rw [if_neg h1, if_neg h2, if_neg h3]) _ _
  · unfold multiLayerGATForward
    exact foldl_fixed _ (fun x gat => by rw [if_neg h1, if_neg h2, if_neg h3]) _ _

/-- Witness for `activation_skip_spec` at the activation name "tanh" and a
two-layer encoder over the one-node feature matrix [[2]]. -/
theorem activation_skip_spec_witness :
    (("tanh" : String) ≠ "relu" ∧ ("tanh" : String) ≠ "leaky_relu" ∧
      ("tanh" : String) ≠ "gelu") ∧
    (multiLayerGCNForward (fun v => v) [fun x _ => x, fun _ _ => []] "tanh"
        { x := [[2]], edge_index := [], y := [] } = [[(2 : ℝ)]] ∧
      multiLayerGATForward (fun v => v) [fun x _ => x, fun _ _ => []] "tanh"
        { x := [[2]], edge_index := [], y := [] } = [[(2 : ℝ)]]) :=
  ⟨⟨by decide, by decide, by decide⟩,
    activation_skip_spec (fun v => v) [fun x _ => x, fun _ _ => []] "tanh"
      { x := [[2]], edge_index := [], y := [] } (by decide) (by decide) (by decide)⟩

/-! ## Similarity lemmas -/

theorem sum_sq_nonneg (x p : List ℝ) :
    0 ≤ ((x.zip p).map (fun q => (q.1 - q.2) ^ 2)).sum := by
  apply List.sum_nonneg
  intro a ha
  obtain ⟨q, _, rfl⟩ := List.mem_map.mp ha
  exact sq_nonneg _

theorem sqEuclidean_eq (x p : List ℝ) :
    sqEuclidean x p = ((x.zip p).map (fun q => (q.1 - q.2) ^ 2)).sum := by
  rw [sqEuclidean, Real.sq_sqrt (sum_sq_nonneg x p)]

theorem sqEuclidean_nonneg (x p : List ℝ) : 0 ≤ sqEuclidean x p :=
  sq_nonneg _

theorem epsilon_eq : epsilon = 1 / 10000 := by
  norm_num [epsilon]

theorem epsilon_pos : 0 < epsilon := by
  rw [epsilon_eq]; norm_num

theorem epsilon_lt_one : epsilon < 1 := by
  rw [epsilon_eq]; norm_num

theorem similarityOfDistance_pos (d : ℝ) (hd : 0 ≤ d) :
    0 < similarityOfDistance d := by
  have he := epsilon_pos
  have hlt := epsilon_lt_one
  rw [similarityOfDistance]
  apply Real.log_pos
  rw [one_lt_div (by linarith)]
  linarith

theorem similarityOfDistance_strictAnti (d1 d2 : ℝ) (h1 : 0 ≤ d1) (h12 : d1 < d2) :
    similarityOfDistance d2 < similarityOfDistance d1 := by
  have he := epsilon_pos
  have hlt := epsilon_lt_one
  rw [similarityOfDistance, similarityOfDistance]
  apply Real.log_lt_log
  · apply div_pos <;> linarith
  · rw [div_lt_div_iff₀ (by linarith) (by linarith)]
    nlinarith [mul_lt_mul_of_pos_left hlt (by linarith : (0 : ℝ) < d2 - d1)]

theorem similarityOfDistance_zero :
    similarityOfDistance 0 = Real.log (1 / epsilon) := by
  rw [similarityOfDistance]
  norm_num

theorem calcSim_entry (E P : List (List ℝ)) (i j : ℕ) (hi : i < E.length)
    (hj : j < P.length) :
    ((calculate_similarity E P).getD i []).getD j 0 =
      similarityOfDistance
        ((((E.getD i []).zip (P.getD j [])).map (fun q => (q.1 - q.2) ^ 2)).sum) := by
  have hi' : i < (calculate_similarity E P).length := by
    simpa [calculate_similarity] using hi
  rw [List.getD_eq_getElem _ _ hi']
  simp only [calculate_similarity, List.getElem_map]
  have hj' : j < (P.map (fun p => similarityOfDistance (sqEuclidean E[i] p))).length := by
    simpa using hj
  rw [List.getD_eq_getElem _ _ hj']
  simp only [List.getElem_map]
  rw [List.getD_eq_getElem _ _ hi, List.getD_eq_getElem _ _ hj, sqEuclidean_eq]

/-- C2: `calculate_similarity` returns an n × k matrix whose (i, j) entry is
`log((d + 1) / (d + epsilon))` for `d` the squared Euclidean distance
between node embedding i and prototype j, with `epsilon = 1e-4 = 1/10000`;
every entry is strictly positive, the transform is strictly decreasing in
the distance, and at distance 0 it equals `log(1 / epsilon)`. -/
theorem calculate_similarity_spec (E P : List (List ℝ)) :
    (calculate_similarity E P).length = E.length ∧
    (∀ row ∈ calculate_similarity E P, row.length = P.length) ∧
    (∀ i j, i < E.length → j < P.length →
      ((calculate_similarity E P).getD i []).getD j 0 =
        Real.log (((((E.getD i []).zip (P.getD j [])).map (fun q => (q.1 - q.2) ^ 2)).sum + 1) /
          ((((E.getD i []).zip (P.getD j [])).map (fun q => (q.1 - q.2) ^ 2)).sum + epsilon))) ∧
    (∀ i j, i < E.length → j < P.length →
      0 < ((calculate_similarity E P).getD i []).getD j 0) ∧
    (∀ d1 d2 : ℝ, 0 ≤ d1 → d1 < d2 →
      similarityOfDistance d2 < similarityOfDistance d1) ∧
    similarityOfDistance 0 = Real.log (1 / epsilon) ∧
    epsilon = 1 / 10000 := by
  refine ⟨by simp [calculate_similarity], ?_, ?_, ?_,
    similarityOfDistance_strictAnti, similarityOfDistance_zero, epsilon_eq⟩
  · intro row hrow
    obtain ⟨x, _, rfl⟩ := List.mem_map.mp hrow
    simp
  · intro i j hi hj
    rw [calcSim_entry E P i j hi hj, similarityOfDistance]
  · intro i j hi hj
    rw [calcSim_entry E P i j hi hj]
    exact similarityOfDistance_pos _ (sum_sq_nonneg _ _)

/-- Witness for `calculate_similarity_spec` at the 1 × 1 embedding [[0]] and
prototype [[0]] (distance 0): the entry equals the transform of distance 0
and is strictly positive. -/
theorem calculate_similarity_spec_witness :
    (0 < ([[(0 : ℝ)]] : List (List ℝ)).length ∧
      0 < ([[(0 : ℝ)]] : List (List ℝ)).length) ∧
    ((calculate_similarity [[(0 : ℝ)]] [[(0 : ℝ)]]).getD 0 []).getD 0 0 =
      Real.log ((((([[(0 : ℝ)]].getD 0 []).zip ([[(0 : ℝ)]].getD 0 [])).map
          (fun q => (q.1 - q.2) ^ 2)).sum + 1) /
        ((((([[(0 : ℝ)]].getD 0 []).zip ([[(0 : ℝ)]].getD 0 [])).map
          (fun q => (q.1 - q.2) ^ 2)).sum) + epsilon)) ∧
    0 < ((calculate_similarity [[(0 : ℝ)]] [[(0 : ℝ)]]).getD 0 []).getD 0 0 :=
  ⟨⟨by simp, by simp⟩,
    (calculate_similarity_spec [[(0 : ℝ)]] [[(0 : ℝ)]]).2.2.1 0 0 (by simp) (by simp),
    (calculate_similarity_spec [[(0 : ℝ)]] [[(0 : ℝ)]]).2.2.2.1 0 0 (by simp) (by simp)⟩

/-! ## Forward-pass lemmas -/

theorem sigmoid_bounds (z : ℝ) : 0 ≤ sigmoid z ∧ sigmoid z ≤ 1 := by
  have he := Real.exp_pos (-z)
  constructor
  · apply div_nonneg <;> linarith
  · rw [sigmoid, div_le_one (by linarith)]
    linarith

theorem balance_some_lengths
    (smote : List (List ℝ) → List ℤ → ℤ → ℕ → ℕ → List (List ℝ) × List ℤ)
    (hsm : ∀ f l m t k, f.length = l.length →
      ((smote f l m t k).1).length = ((smote f l m t k).2).length)
    (f : List (List ℝ)) (l : List ℤ) (scale : ℕ) (method : String)
    (pr : List (List ℝ) × List ℤ) (hfl : f.length = l.length)
    (h : balance_features_labels smote f l scale method = some pr) :
    pr.1.length = pr.2.length := by
  by_cases hg : (torchWhere l (minorityLabel l)).length ≤ 1 ∨ scale = 0
  · rw [balance_guard_eq smote f l scale method hg] at h
    obtain rfl := Option.some.inj h
    exact hfl
  · by_cases hS : method = "SMOTE"
    · subst hS
      rw [balance_smote_eq smote f l scale hg] at h
      obtain rfl := Option.some.inj h
      exact hsm f l (minorityLabel l) _ _ hfl
    · by_cases hC : method = "copy"
      · subst hC
        rw [balance_copy_eq smote f l scale hg] at h
        obtain rfl := Option.some.inj h
        simp only [List.length_append, List.length_map, List.length_replicate,
          torchRepeat_length]
        rw [hfl, Nat.mul_comm]
      · rw [balance_other_eq smote f l scale method hg hS hC] at h
        cases h

/-- C1: every forward call that returns does so with a pair of 1-D vectors
of equal length; in eval mode the returned labels are the input label
vector cast to floating point and the probabilities have one entry per
input node, each in [0, 1]; and in train mode with sample method "copy",
scale factor 2 and a binary label vector of 8 zeros and 2 ones, both
returned vectors have length 14 (the balancer appends 2 × 2 = 4 minority
copies). `hsm` is the resampler's documented length contract and `hgnn` the
encoder's node-count preservation (one embedding row per labelled node). -/
theorem sladgnn_forward_pair_spec
    (smote : List (List ℝ) → List ℤ → ℤ → ℕ → ℕ → List (List ℝ) × List ℤ)
    (gnn : GraphData → List (List ℝ)) (mlp : List ℝ → ℝ)
    (prototype_layer : List (List (List ℝ))) (data : GraphData)
    (hsm : ∀ f l m t k, f.length = l.length →
      ((smote f l m t k).1).length = ((smote f l m t k).2).length)
    (hgnn : (gnn data).length = data.y.length) :
    (∀ mode scale method p l,
      sladgnnForward smote gnn mlp prototype_layer data mode scale method () = some (p, l) →
      p.length = l.length) ∧
    (∀ scale method,
      ∃ p, sladgnnForward smote gnn mlp prototype_layer data "eval" scale method () =
          some (p, data.y.map (fun v => (Int.cast v : ℝ))) ∧
        p.length = data.y.length ∧ ∀ q ∈ p, 0 ≤ q ∧ q ≤ 1) ∧
    (data.y.count 0 = 8 → data.y.count 1 = 2 → (∀ v ∈ data.y, v = 0 ∨ v = 1) →
      ∃ p l, sladgnnForward smote gnn mlp prototype_layer data "train" 2 "copy" () =
          some (p, l) ∧ p.length = 14 ∧ l.length = 14) := by
  refine ⟨?_, ?_, ?_⟩
  · intro mode scale method p l h
    simp only [sladgnnForward] at h
    by_cases hm : mode = "train"
    · rw [if_pos hm] at h
      cases hb : balance_features_labels smote (gnn data) data.y scale method with
      | none => rw [hb] at h; exact absurd h (by simp)
      | some pr =>
        obtain ⟨f2, l2⟩ := pr
        rw [hb] at h
        simp only [Option.some.injEq, Prod.mk.injEq] at h
        obtain ⟨hp, hl⟩ := h
        rw [← hp, ← hl]
        simp only [List.length_map, calculate_similarity]
        exact balance_some_lengths smote hsm (gnn data) data.y scale method (f2, l2) hgnn hb
    · rw [if_neg hm] at h
      simp only [Option.some.injEq, Prod.mk.injEq] at h
      obtain ⟨hp, hl⟩ := h
      rw [← hp, ← hl]
      simp only [List.length_map, calculate_similarity]
      exact hgnn
  · intro scale method
    refine ⟨(calculate_similarity (gnn data) prototype_layer.flatten).map
        (fun row => sigmoid (mlp row)), ?_, ?_, ?_⟩
    · simp only [sladgnnForward]
      rw [if_neg (by decide : ¬(("eval" : String) = "train"))]
    · simp only [List.length_map, calculate_similarity]
      exact hgnn
    · intro q hq
      obtain ⟨row, _, rfl⟩ := List.mem_map.mp hq
      exact sigmoid_bounds (mlp row)
  · intro h0 h1 hbin
    have hlen : data.y.length = 10 := by
      rw [binary_length data.y hbin, h0, h1]
    have hml : minorityLabel data.y = 1 := by
      rw [minorityLabel, h0, h1, if_neg (by omega)]
    have hc : (torchWhere data.y (minorityLabel data.y)).length = 2 := by
      rw [hml, torchWhere_length, h1]
    have hguard : ¬((torchWhere data.y (minorityLabel data.y)).length ≤ 1 ∨ (2 : ℕ) = 0) := by
      omega
    have hb := balance_copy_eq smote (gnn data) data.y 2 hguard
    refine ⟨(calculate_similarity
        ((gnn data) ++ (torchRepeat (torchWhere data.y (minorityLabel data.y)) 2).map
          (fun i => (gnn data).getD i []))
        prototype_layer.flatten).map (fun row => sigmoid (mlp row)),
      (data.y ++ List.replicate ((torchWhere data.y (minorityLabel data.y)).length * 2)
        (minorityLabel data.y)).map (fun v => (Int.cast v : ℝ)), ?_, ?_, ?_⟩
    · simp only [sladgnnForward, if_true, hb]
    · simp only [List.length_map, calculate_similarity, List.length_append,
        torchRepeat_length, hc, hgnn, hlen]
    · simp only [List.length_map, List.length_append, List.length_replicate, hc, hlen]

/-- Witness for `sladgnn_forward_pair_spec`: the identity encoder over a
10-node batch with labels [0,0,0,0,0,0,0,0,1,1], the count-level SMOTE
model (which satisfies the length contract), a constant readout and an
empty prototype bank. -/
theorem sladgnn_forward_pair_spec_witness :
    ((List.replicate 10 [(0 : ℝ)]).length =
      ([0, 0, 0, 0, 0, 0, 0, 0, 1, 1] : List ℤ).length ∧
      ([0, 0, 0, 0, 0, 0, 0, 0, 1, 1] : List ℤ).count 0 = 8 ∧
      ([0, 0, 0, 0, 0, 0, 0, 0, 1, 1] : List ℤ).count 1 = 2 ∧
      (∀ v ∈ ([0, 0, 0, 0, 0, 0, 0, 0, 1, 1] : List ℤ), v = 0 ∨ v = 1)) ∧
    (∃ p l,
      sladgnnForward smoteModel (fun d => d.x) (fun _ => 0) []
        (⟨List.replicate 10 [(0 : ℝ)], [], [0, 0, 0, 0, 0, 0, 0, 0, 1, 1]⟩ : GraphData)
        "train" 2 "copy" () = some (p, l) ∧
      p.length = 14 ∧ l.length = 14) :=
  ⟨⟨by simp, by decide, by decide, by decide⟩,
    (sladgnn_forward_pair_spec smoteModel (fun d => d.x) (fun _ => 0) []
      (⟨List.replicate 10 [(0 : ℝ)], [], [0, 0, 0, 0, 0, 0, 0, 0, 1, 1]⟩ : GraphData)
      (fun f l m t k => smoteModel_lengths f l m t k)
      (by simp)).2.2 (by decide) (by decide) (by decide)⟩
